import Mathlib

/-!
Verification of the FFTA cantilever-simulation core (`ffta/simulation/cantilever.py`)
and the per-line fan-out (`line.py`).

The embedding follows the Python source.  Numeric values that the source stores
as double-precision floats are modelled as exact rationals (`ℚ`); derived
physical constants that involve `π`, `sqrt`, `sin`, `cos` and `arctan` live in
`ℝ`.  Python's `int(x)` cast (truncation toward zero) is `pyIntQ` / `pyInt`,
`numpy.mod` is `fmod`, and Python dictionaries are association lists over the
value type `PVal` with Python's `dict.update` / `in` / `d[k] = v` semantics.
The scipy `odeint` call is an external collaborator: it is abstracted as a
function `sol` from an initial condition and a time to a position, applied once
per entry of the time vector (one output row per time point), which is all the
trimming-related claims depend on.
-/

namespace FFTA

/-- Python `int(x)` for a rational `x`: truncation toward zero. -/
def pyIntQ (x : ℚ) : ℤ := if 0 ≤ x then ⌊x⌋ else ⌈x⌉

/-- Values stored in the parameter dictionaries of the source: floats
(modelled as `ℚ`), strings, booleans, and nested dictionaries (the
`fft_params` default is the empty dict). -/
inductive PVal where
  | num  (q : ℚ)
  | str  (s : String)
  | bool (b : Bool)
  | dict (d : List (String × PVal))

/-- A Python dictionary with string keys, as an association list in insertion
order (first occurrence wins on lookup; the model only ever builds
duplicate-free dictionaries). -/
abbrev Dict := List (String × PVal)

/-- Python `d[k]` / `d.get(k)`. -/
def pyLookup (d : Dict) (k : String) : Option PVal :=
  match d with
  | [] => none
  | (k', v) :: t => if k' = k then some v else pyLookup t k

/-- Python `d[k] = v`: replace in place if the key exists, else append. -/
def pySet (d : Dict) (k : String) (v : PVal) : Dict :=
  match d with
  | [] => [(k, v)]
  | (k', v') :: t => if k' = k then (k, v) :: t else (k', v') :: pySet t k v

/-- Python `k in d`. -/
def pyContains (d : Dict) (k : String) : Bool := (pyLookup d k).isSome

/-- Python `d.update(src)` (also `d.update(**src)`): insert every key/value
pair of `src`, in order, into `d`. -/
def pyUpdate (d src : Dict) : Dict :=
  src.foldl (fun acc kv => pySet acc kv.1 kv.2) d

/-- The keys of a dictionary. -/
def dictKeys (d : Dict) : List String := d.map Prod.fst

end FFTA

namespace FFTA

/- Basic association-list lemmas used by the consolidation proofs. -/

theorem pyLookup_pySet (d : Dict) (k k' : String) (v : PVal) :
    pyLookup (pySet d k v) k' = if k = k' then some v else pyLookup d k' := by
  induction d with
  | nil => simp [pySet, pyLookup]
  | cons hd t ih =>
    obtain ⟨k₀, v₀⟩ := hd
    by_cases h0 : k₀ = k
    · subst h0
      by_cases h1 : k₀ = k'
      · subst h1; simp [pySet, pyLookup]
      · simp [pySet, pyLookup, h1]
    · by_cases h1 : k₀ = k'
      · subst h1
        have hkk : ¬ k = k₀ := fun h => h0 h.symm
        simp [pySet, pyLookup, h0, hkk]
      · simp [pySet, pyLookup, h0, h1, ih]

theorem dictKeys_pySet_of_contains (d : Dict) (k : String) (v : PVal)
    (h : pyContains d k = true) : dictKeys (pySet d k v) = dictKeys d := by
  induction d with
  | nil => simp [pyContains, pyLookup] at h
  | cons hd t ih =>
    obtain ⟨k₀, v₀⟩ := hd
    by_cases h0 : k₀ = k
    · subst h0; simp [pySet, dictKeys]
    · simp only [pyContains, pyLookup, h0, if_false] at h
      have := ih (by simpa [pyContains] using h)
      simp [pySet, dictKeys, h0]
      simpa [dictKeys] using this

theorem dictKeys_pySet_of_not_contains (d : Dict) (k : String) (v : PVal)
    (h : pyContains d k = false) : dictKeys (pySet d k v) = dictKeys d ++ [k] := by
  induction d with
  | nil => simp [pySet, dictKeys]
  | cons hd t ih =>
    obtain ⟨k₀, v₀⟩ := hd
    by_cases h0 : k₀ = k
    · subst h0; simp [pyContains, pyLookup] at h
    · simp only [pyContains, pyLookup, h0, if_false] at h
      have := ih (by simpa [pyContains] using h)
      simp [pySet, dictKeys, h0]
      simpa [dictKeys] using this

theorem pyLookup_isSome_pySet (d : Dict) (k k' : String) (v : PVal)
    (h : (pyLookup d k').isSome) : (pyLookup (pySet d k v) k').isSome := by
  rw [pyLookup_pySet]
  by_cases hk : k = k' <;> simp [hk, h]

end FFTA

namespace FFTA

/-! ### The parameter consolidator (`Cantilever.create_parameters`)

`create_parameters(self, params={}, can_params={}, fit_params={})` seeds three
hard-default tables, fills each passed dictionary in place (explicit value
first, else the instance attribute, else the hard default), and then merges the
filled dictionaries into the instance bundles `self.parameters`,
`self.can_params`, `self.fit_params`.  The empty-dict default arguments are
evaluated once at function-definition time and shared across all calls and all
instances; `GDefaults` carries those three long-lived dictionary objects. -/

/-- The `_parameters` hard-default table of `create_parameters`. -/
def paramsTable : List (String × PVal) :=
  [("bandpass_filter", PVal.num 1),
   ("drive_freq", PVal.num 277261),
   ("filter_bandwidth", PVal.num 10000),
   ("n_taps", PVal.num 799),
   ("roi", PVal.num (3 / 10000)),
   ("sampling_rate", PVal.num 10000000),
   ("total_time", PVal.num (2 / 1000)),
   ("trigger", PVal.num (5 / 10000)),
   ("window", PVal.str ("blackman")),
   ("wavelet_analysis", PVal.num 0),
   ("fft_params", PVal.dict [])]

/-- The `_can_params` hard-default table of `create_parameters`. -/
def canParamsTable : List (String × PVal) :=
  [("amp_invols", PVal.num (552 / 10000000000)),
   ("def_invols", PVal.num (506 / 10000000000)),
   ("k", PVal.num (262 / 10)),
   ("q_factor", PVal.num 432)]

/-- The `_fit_params` hard-default table of `create_parameters`. -/
def fitParamsTable : List (String × PVal) :=
  [("filter_amplitude", PVal.bool true),
   ("method", PVal.str ("hilbert")),
   ("fit", PVal.bool true),
   ("fit_form", PVal.str ("product"))]

/-- One `for key, val in _table.items(): if key not in given: given[key] =
self.__dict__[key] if hasattr(self, key) else val` loop of
`create_parameters`, filling `given` in place. -/
def fillGroup (attrs : Dict) (tbl : List (String × PVal)) (given : Dict) : Dict :=
  tbl.foldl
    (fun acc kv =>
      if pyContains acc kv.1 then acc
      else pySet acc kv.1 ((pyLookup attrs kv.1).getD kv.2))
    given

/-- The consolidation-relevant state of a `Cantilever` instance: its attribute
dictionary (`self.__dict__`, as populated by the `setattr` loops of the
constructor) and the three persistent parameter bundles. -/
structure CState where
  attrs : Dict
  parameters : Dict
  can_params : Dict
  fit_params : Dict

/-- The body of `create_parameters` once the three dictionary arguments are in
hand: fill each in place, then merge each into the corresponding instance
bundle.  Returns the new instance state together with the final contents of
the three (mutated) argument dictionaries. -/
def createParametersCore (s : CState) (p c f : Dict) : CState × Dict × Dict × Dict :=
  let pf := fillGroup s.attrs paramsTable p
  let cf := fillGroup s.attrs canParamsTable c
  let ff := fillGroup s.attrs fitParamsTable f
  ({ s with
      parameters := pyUpdate s.parameters pf
      can_params := pyUpdate s.can_params cf
      fit_params := pyUpdate s.fit_params ff },
   pf, cf, ff)

/-- The three mutable default-argument dictionaries of `create_parameters`
(`params={}, can_params={}, fit_params={}`), created once when the function is
defined and shared across every call on every instance. -/
structure GDefaults where
  p : Dict
  c : Dict
  f : Dict

/-- The state of the default-argument dictionaries when the module is loaded:
all three empty. -/
def gInit : GDefaults := ⟨[], [], []⟩

/-- A call `self.create_parameters(params?, can_params?, fit_params?)`: an
omitted argument is the shared default dictionary, which the body then fills
in place, so its new contents persist into later calls (on any instance). -/
def createParametersCall (g : GDefaults) (s : CState)
    (p c f : Option Dict) : CState × GDefaults :=
  let r := createParametersCore s (p.getD g.p) (c.getD g.c) (f.getD g.f)
  (r.1,
   { p := if p.isNone then r.2.1 else g.p
     c := if c.isNone then r.2.2.1 else g.c
     f := if f.isNone then r.2.2.2 else g.f })

/-- What the caller observes after `Cantilever.__init__` returns: the new
instance state, the new shared default dictionaries, and the final contents of
the three dictionary objects the caller passed in. -/
structure ConstructOut where
  state : CState
  g : GDefaults
  callerForce : Dict
  callerCan : Dict
  callerSim : Dict

/-- The dictionary bookkeeping of `Cantilever.__init__`:
`setattr` loops over the three input dictionaries, then
`self.parameters = force_params` (an alias, not a copy),
`self.parameters.update(**sim_params)` (mutating the caller's `force_params`),
`self.can_params = can_params` (an alias), `self.fit_params = {}`, and finally
`self.create_parameters(self.parameters, self.can_params)` with the
`fit_params` argument defaulted to the shared default dictionary.  Inside that
call the `params` argument is the very object `self.parameters` (that is, the
caller's `force_params`) and `can_params` is `self.can_params` (the caller's
`can_params`), so the fills mutate those objects and the trailing
`self.parameters.update(**params)` re-inserts a dictionary's own entries into
itself.  The derived float attributes (`w0`, `beta`, `mass`, ...) are modelled
separately (they are not keys of any allow-list table, so the consolidator
never reads them). -/
def constructCantilever (can force sim : Dict) (g : GDefaults) : ConstructOut :=
  let attrs := pyUpdate (pyUpdate (pyUpdate [] can) force) sim
  let params0 := pyUpdate force sim
  let pf := fillGroup attrs paramsTable params0
  let cf := fillGroup attrs canParamsTable can
  let ff := fillGroup attrs fitParamsTable g.f
  let parametersFinal := pyUpdate pf pf
  let canFinal := pyUpdate cf cf
  { state := ⟨attrs, parametersFinal, canFinal, pyUpdate [] ff⟩
    g := { g with f := ff }
    callerForce := parametersFinal
    callerCan := canFinal
    callerSim := sim }

end FFTA

namespace FFTA

/-! Lemmas about `pyUpdate` and `fillGroup`. -/

theorem pyLookup_eq_none_iff (d : Dict) (k : String) :
    pyLookup d k = none ↔ k ∉ dictKeys d := by
  induction d with
  | nil => simp [pyLookup, dictKeys]
  | cons hd t ih =>
    obtain ⟨k₀, v₀⟩ := hd
    by_cases h0 : k₀ = k
    · subst h0; simp [pyLookup, dictKeys]
    · simp only [pyLookup, h0, if_false, dictKeys, List.map_cons, List.mem_cons,
        not_or, ih, dictKeys]
      exact ⟨fun hh => ⟨fun he => h0 he.symm, hh⟩, fun hh => hh.2⟩

theorem pyContains_false_not_mem (d : Dict) (k : String)
    (h : ¬ pyContains d k = true) : k ∉ dictKeys d := by
  apply (pyLookup_eq_none_iff d k).mp
  cases hx : pyLookup d k with
  | none => rfl
  | some w => exact absurd (by simp [pyContains, hx]) h

theorem pyUpdate_cons (d : Dict) (k : String) (v : PVal) (src : Dict) :
    pyUpdate d ((k, v) :: src) = pyUpdate (pySet d k v) src := rfl

theorem pyLookup_pyUpdate_of_not_mem (d src : Dict) (k : String)
    (h : k ∉ dictKeys src) : pyLookup (pyUpdate d src) k = pyLookup d k := by
  induction src generalizing d with
  | nil => rfl
  | cons hd t ih =>
    obtain ⟨k₀, v₀⟩ := hd
    simp only [dictKeys, List.map_cons, List.mem_cons, not_or] at h
    rw [pyUpdate_cons, ih _ h.2, pyLookup_pySet,
      if_neg (fun he => h.1 he.symm)]

theorem pyLookup_pyUpdate_of_lookup_none (d src : Dict) (k : String)
    (h : pyLookup src k = none) : pyLookup (pyUpdate d src) k = pyLookup d k :=
  pyLookup_pyUpdate_of_not_mem d src k ((pyLookup_eq_none_iff src k).mp h)

theorem pyLookup_pyUpdate_of_lookup_some (d src : Dict) (k : String) (w : PVal)
    (hnd : (dictKeys src).Nodup) (h : pyLookup src k = some w) :
    pyLookup (pyUpdate d src) k = some w := by
  induction src generalizing d with
  | nil => simp [pyLookup] at h
  | cons hd t ih =>
    obtain ⟨k₀, v₀⟩ := hd
    simp only [dictKeys, List.map_cons, List.nodup_cons] at hnd
    by_cases h0 : k₀ = k
    · subst h0
      have hv : v₀ = w := by simpa [pyLookup] using h
      subst hv
      rw [pyUpdate_cons, pyLookup_pyUpdate_of_not_mem _ _ _ hnd.1,
        pyLookup_pySet, if_pos rfl]
    · simp only [pyLookup, h0, if_false] at h
      rw [pyUpdate_cons, ih _ hnd.2 h]

theorem dictKeys_nodup_pySet (d : Dict) (k : String) (v : PVal)
    (h : (dictKeys d).Nodup) : (dictKeys (pySet d k v)).Nodup := by
  by_cases hc : pyContains d k = true
  · rw [dictKeys_pySet_of_contains d k v hc]; exact h
  · rw [dictKeys_pySet_of_not_contains d k v (by simpa using hc)]
    have hk : k ∉ dictKeys d := pyContains_false_not_mem d k hc
    simpa [List.nodup_append] using ⟨h, hk⟩

theorem dictKeys_nodup_pyUpdate (d src : Dict)
    (h : (dictKeys d).Nodup) : (dictKeys (pyUpdate d src)).Nodup := by
  induction src generalizing d with
  | nil => exact h
  | cons hd t ih =>
    obtain ⟨k₀, v₀⟩ := hd
    rw [pyUpdate_cons]
    exact ih _ (dictKeys_nodup_pySet _ _ _ h)

theorem fillGroup_cons (attrs : Dict) (k : String) (v : PVal)
    (tbl : List (String × PVal)) (given : Dict) :
    fillGroup attrs ((k, v) :: tbl) given =
      fillGroup attrs tbl
        (if pyContains given k then given
         else pySet given k ((pyLookup attrs k).getD v)) := by
  by_cases hc : pyContains given k = true <;> simp [fillGroup, hc]

theorem dictKeys_nodup_fillGroup (attrs : Dict) (tbl : List (String × PVal))
    (given : Dict) (h : (dictKeys given).Nodup) :
    (dictKeys (fillGroup attrs tbl given)).Nodup := by
  induction tbl generalizing given with
  | nil => exact h
  | cons hd t ih =>
    obtain ⟨k₀, v₀⟩ := hd
    rw [fillGroup_cons]
    by_cases hc : pyContains given k₀ = true
    · rw [if_pos hc]; exact ih _ h
    · rw [if_neg hc]; exact ih _ (dictKeys_nodup_pySet _ _ _ h)

theorem pyLookup_fillGroup_of_isSome (attrs : Dict) (tbl : List (String × PVal))
    (given : Dict) (k : String) (h : (pyLookup given k).isSome) :
    pyLookup (fillGroup attrs tbl given) k = pyLookup given k := by
  induction tbl generalizing given with
  | nil => rfl
  | cons hd t ih =>
    obtain ⟨k₀, v₀⟩ := hd
    rw [fillGroup_cons]
    by_cases hc : pyContains given k₀ = true
    · rw [if_pos hc]; exact ih _ h
    · rw [if_neg hc]
      have hne : ¬ k₀ = k := by
        intro he; subst he
        exact hc (by simpa [pyContains] using h)
      rw [ih _ (pyLookup_isSome_pySet _ _ _ _ h), pyLookup_pySet, if_neg hne]

theorem pyLookup_fillGroup_of_not_mem (attrs : Dict) (tbl : List (String × PVal))
    (given : Dict) (k : String) (h : k ∉ tbl.map Prod.fst) :
    pyLookup (fillGroup attrs tbl given) k = pyLookup given k := by
  induction tbl generalizing given with
  | nil => rfl
  | cons hd t ih =>
    obtain ⟨k₀, v₀⟩ := hd
    simp only [List.map_cons, List.mem_cons, not_or] at h
    rw [fillGroup_cons]
    by_cases hc : pyContains given k₀ = true
    · rw [if_pos hc]; exact ih _ h.2
    · rw [if_neg hc, ih _ h.2, pyLookup_pySet, if_neg (fun he => h.1 he.symm)]

theorem pyLookup_fillGroup_mem (attrs : Dict) (tbl : List (String × PVal))
    (given : Dict) (k : String) (v : PVal)
    (hnd : (tbl.map Prod.fst).Nodup) (hmem : (k, v) ∈ tbl) :
    pyLookup (fillGroup attrs tbl given) k =
      some ((pyLookup given k).getD ((pyLookup attrs k).getD v)) := by
  induction tbl generalizing given with
  | nil => simp at hmem
  | cons hd t ih =>
    obtain ⟨k₀, v₀⟩ := hd
    simp only [List.map_cons, List.nodup_cons] at hnd
    rcases List.mem_cons.mp hmem with he | ht
    · injection he with hk hv
      subst hk; subst hv
      rw [fillGroup_cons]
      by_cases hc : pyContains given k = true
      · rw [if_pos hc]
        obtain ⟨w, hw⟩ := Option.isSome_iff_exists.mp (by simpa [pyContains] using hc)
        rw [pyLookup_fillGroup_of_isSome _ _ _ _ (by simp [hw]), hw]
        simp
      · rw [if_neg hc]
        have hnone : pyLookup given k = none :=
          (pyLookup_eq_none_iff given k).mpr (pyContains_false_not_mem given k hc)
        rw [pyLookup_fillGroup_of_isSome _ _ _ _
            (by rw [pyLookup_pySet, if_pos rfl]; simp),
          pyLookup_pySet, if_pos rfl, hnone]
        simp
    · have hne : ¬ k₀ = k := by
        intro he; subst he
        exact hnd.1 (by simpa using List.mem_map_of_mem Prod.fst ht)
      rw [fillGroup_cons]
      by_cases hc : pyContains given k₀ = true
      · rw [if_pos hc]; exact ih _ hnd.2 ht
      · rw [if_neg hc, ih _ hnd.2 ht, pyLookup_pySet, if_neg hne]

theorem pyLookup_fillGroup_isSome_of_mem (attrs : Dict)
    (tbl : List (String × PVal)) (given : Dict) (k : String) (v : PVal)
    (hnd : (tbl.map Prod.fst).Nodup) (hmem : (k, v) ∈ tbl) :
    (pyLookup (fillGroup attrs tbl given) k).isSome := by
  rw [pyLookup_fillGroup_mem attrs tbl given k v hnd hmem]; simp

/- Evaluating `fillGroup` head-on duplicates its accumulator at every step of
the fold, so all reasoning (also at concrete inputs) goes through the lemmas
above. -/
attribute [irreducible] fillGroup

end FFTA
namespace FFTA

/-! ### Cantilever configuration and the downsampler

`Cantilever.downsample(target_rate)` checks `target_rate > sampling_rate`
(raising `ValueError` when the target is strictly above the current rate),
computes `step = int(sampling_rate / target_rate)` and
`n_points = int(total_time * target_rate)`, and overwrites
`self.Z = self.Z[0::step].reshape(n_points, 1) / self.def_invols`.
Division by a zero target rate raises `ZeroDivisionError` while computing
`step`; a zero step raises `ValueError` at the slicing; a negative step
completes — `Z[0::step]` with a negative step walks backwards from index 0
and yields just the first element — and `reshape(n_points, 1)` with a
negative `n_points` treats it as numpy's inferred dimension and also
completes, while a nonnegative `n_points` requires the strided size to equal
it.  Any raise happens before the assignment, so `self.Z` is then
unchanged. -/

/-- The scalar configuration the `Cantilever` constructor receives (the union
of the keys of `can_params`, `force_params` and `sim_params` that the
simulation methods read), as exact rationals. -/
structure Config where
  amp_invols : ℚ
  def_invols : ℚ
  soft_amp : ℚ
  drive_freq : ℚ
  res_freq : ℚ
  k : ℚ
  q_factor : ℚ
  es_force : ℚ
  delta_freq : ℚ
  tau : ℚ
  trigger : ℚ
  total_time : ℚ
  sampling_rate : ℚ

/-- How a `downsample` call can raise. -/
inductive DownErr where
  | targetTooHigh   -- the explicit `ValueError` for `target_rate > sampling_rate`
  | zeroDivision    -- `ZeroDivisionError` from `sampling_rate / target_rate`
                    -- when the target rate is zero
  | zeroStep        -- `ValueError('slice step cannot be zero')` from
                    -- `Z[0::0]`, reached when `int(sampling_rate /
                    -- target_rate)` truncates to zero
  | reshapeMismatch -- `reshape(n_points, 1)` on an array whose size differs
                    -- from a nonnegative `n_points`
  deriving DecidableEq

/-- `Z[0::step]` for `step ≥ 1`: every `step`-th element, starting at index
0. -/
def strideEvery (Z : List ℚ) (step : ℕ) : List ℚ :=
  (Z.enum.filter (fun p => p.1 % step = 0)).map Prod.snd

/-- `Cantilever.downsample(target_rate)`: the returned value is the new
waveform, or the error raised before `self.Z` was reassigned.  A negative
step yields `Z[0::step] = [Z[0]]` (`Z.take 1`), and a negative `n_points` is
numpy's inferred-dimension marker, so `reshape(n_points, 1)` then reshapes to
`(size, 1)` unconditionally. -/
def downsample (c : Config) (Z : List ℚ) (target_rate : ℚ) : Except DownErr (List ℚ) :=
  if target_rate > c.sampling_rate then .error .targetTooHigh
  else if target_rate = 0 then .error .zeroDivision
  else
    let step := pyIntQ (c.sampling_rate / target_rate)
    let n_points := pyIntQ (c.total_time * target_rate)
    if step = 0 then .error .zeroStep
    else
      let strided := if 0 < step then strideEvery Z step.toNat else Z.take 1
      if n_points < 0 then .ok (strided.map (fun z => z / c.def_invols))
      else if (strided.length : ℤ) = n_points then
        .ok (strided.map (fun z => z / c.def_invols))
      else .error .reshapeMismatch

/-- The effect of `downsample` on the stored waveform `self.Z`: overwritten on
success, untouched when the call raises. -/
def downsampleRun (c : Config) (Z : List ℚ) (target_rate : ℚ) : List ℚ :=
  match downsample c Z target_rate with
  | .ok Z' => Z'
  | .error _ => Z

/-- Whether a `downsample` outcome is the input-validation `ValueError` for a
too-high target rate. -/
def isTargetTooHigh (r : Except DownErr (List ℚ)) : Bool :=
  match r with
  | .error .targetTooHigh => true
  | _ => false

end FFTA

namespace FFTA

/-! ### The per-line fan-out (`line.py`, `Line.get_tfp`)

`Line.get_tfp` does `np.split(self.signal_array, self.n_pixels, axis=1)`
(raising unless the number of columns divides evenly), builds one external
`pixel.Pixel` analyzer per segment, and collects the two scalars each returns
into the preallocated `tfp` and `shift` arrays of length `n_pixels`.  The
signal array is represented column-wise (`signal_cols` lists the `n_signals`
columns, each a list of `n_points` samples); the external per-pixel analyzer
is abstracted as a function from a segment and the parameter object to the
`(tfp, shift)` pair. -/

/-- Split a list into `n` consecutive chunks of `size` elements each. -/
def chunksOf {α : Type} (size : ℕ) : ℕ → List α → List (List α)
  | 0, _ => []
  | n + 1, l => l.take size :: chunksOf size n (l.drop size)

/-- `np.split(arr, n, axis=1)` on a column-wise matrix: `none` models the
raise when `n` is zero or does not divide the number of columns. -/
def npSplitCols {α : Type} (cols : List α) (n : ℕ) : Option (List (List α)) :=
  if 0 < n ∧ n ∣ cols.length then some (chunksOf (cols.length / n) n cols) else none

/-- The state of a `Line` object: the raw 2-D signal (as its columns), the
pixel count and the processing parameters (opaque to the fan-out). -/
structure LineData (α : Type) where
  signal_cols : List (List ℚ)
  n_pixels : ℕ
  params : α

/-- `Line.get_tfp`, with the external per-pixel analyzer
(`pixel.Pixel(pix, params).get_tfp()`) abstracted as `pixelGetTfp`. -/
def lineGetTfp {α : Type} (pixelGetTfp : List (List ℚ) → α → ℚ × ℚ)
    (ln : LineData α) : Option (List ℚ × List ℚ) :=
  (npSplitCols ln.signal_cols ln.n_pixels).map
    (fun segs => (segs.map (fun s => pixelGetTfp s ln.params)).unzip)

theorem chunksOf_length {α : Type} (size n : ℕ) (l : List α) :
    (chunksOf size n l).length = n := by
  induction n generalizing l with
  | zero => rfl
  | succ m ih => simp [chunksOf, ih]

theorem unzip_map_pair {α β γ : Type} (f : α → β × γ) (l : List α) :
    (l.map f).unzip = (l.map (fun a => (f a).1), l.map (fun a => (f a).2)) := by
  induction l with
  | nil => rfl
  | cons x t ih => simp [ih]

end FFTA
namespace FFTA

/-! ### Derived physical constants (`Cantilever.__init__`) and the phase
trigger solver (`Cantilever.set_conditions`)

These involve `π` and the transcendental functions of numpy, so they live in
`ℝ` (the rational configuration values are coerced). -/

noncomputable section

open Real

/-- Python `int(x)` on a real: truncation toward zero. -/
def pyInt (x : ℝ) : ℤ := if 0 ≤ x then ⌊x⌋ else ⌈x⌉

/-- `numpy.mod(x, m)` for floats: `x - m * floor(x / m)`. -/
def fmod (x m : ℝ) : ℝ := x - m * ⌊x / m⌋

/-- `self.w0 = 2 * pi * self.res_freq` (radial resonance frequency). -/
def w0 (c : Config) : ℝ := 2 * π * (c.res_freq : ℝ)

/-- `self.wd = 2 * pi * self.drive_freq` (radial drive frequency). -/
def wd (c : Config) : ℝ := 2 * π * (c.drive_freq : ℝ)

/-- `self.beta = self.w0 / (2 * self.q_factor)` (damping factor). -/
def beta (c : Config) : ℝ := w0 c / (2 * (c.q_factor : ℝ))

/-- `self.mass = self.k / self.w0 ** 2`. -/
def mass (c : Config) : ℝ := (c.k : ℝ) / (w0 c) ^ 2

/-- `self.amp = self.soft_amp * self.amp_invols` (amplitude in meters). -/
def amp (c : Config) : ℝ := (c.soft_amp : ℝ) * (c.amp_invols : ℝ)

/-- `self.f0 = self.amp * sqrt((w0**2 - wd**2)**2 + 4 * beta**2 * wd**2)`
(reduced driving force). -/
def f0 (c : Config) : ℝ :=
  amp c * Real.sqrt ((w0 c ^ 2 - wd c ^ 2) ^ 2 + 4 * beta c ^ 2 * wd c ^ 2)

/-- `self.delta = abs(arctan(divide(2 * wd * beta, w0**2 - wd**2)))`.
`np.seterr(divide='ignore')` suppresses the divide-by-zero warning: at exact
resonance `np.divide` yields `±inf` (the numerator `2*wd*beta` is nonzero
whenever the drive frequency is), `arctan(±inf) = ±π/2`, and the absolute
value gives `π/2`.  The branch encodes that limit; the doubly-degenerate
`0/0 = nan` case (zero drive frequency at zero resonance frequency) is outside
the spec's domain and is mapped to `π/2` as well. -/
def delta (c : Config) : ℝ :=
  if w0 c ^ 2 - wd c ^ 2 = 0 then π / 2
  else |Real.arctan (2 * wd c * beta c / (w0 c ^ 2 - wd c ^ 2))|

/-- `self.trigger_phase = np.mod(np.pi * trigger_phase / 180, PI2)`
(degrees → radians, normalized to `[0, 2π)`). -/
def trigPhase (deg : ℝ) : ℝ := fmod (π * deg / 180) (2 * π)

/-- The working state `set_conditions` (or the explicit-initial-condition
branch of `simulate`) stores on the instance and the integrator then uses. -/
structure SimState where
  trigger_phase : ℝ
  n_points : ℤ
  n_points_sim : ℤ
  t : List ℝ
  t0 : ℝ
  z0 : ℝ
  v0 : ℝ

/-- `Cantilever.set_conditions(trigger_phase)`: normalize the requested phase,
compute the requested and extended sample counts, build the extended time
vector, locate the phase-correct trigger time `t0`, and take the analytic
steady-state values at `t = 0` as the initial condition. -/
def setConditions (c : Config) (deg : ℝ) : SimState :=
  let tp := trigPhase deg
  let n_points := pyInt ((c.total_time : ℝ) * (c.sampling_rate : ℝ))
  let cycle_points := pyInt (2 * (c.sampling_rate : ℝ) / (c.res_freq : ℝ))
  let n_points_sim := cycle_points + n_points
  let current_phase := fmod (wd c * (c.trigger : ℝ) - delta c) (2 * π)
  let phase_diff := fmod (tp - current_phase) (2 * π)
  { trigger_phase := tp
    n_points := n_points
    n_points_sim := n_points_sim
    t := (List.range n_points_sim.toNat).map
      (fun i : ℕ => (i : ℝ) / (c.sampling_rate : ℝ))
    t0 := (c.trigger : ℝ) + phase_diff / wd c
    z0 := amp c * Real.sin (-(delta c))
    v0 := amp c * wd c * Real.cos (-(delta c)) }

/-- The state the explicit-`Z0` branch of `simulate` builds:
`n_points = int(total_time * sampling_rate)`, `t = arange(n_points) /
sampling_rate`, `t0 = trigger`, `Z0` as given.  The branch does not touch
`trigger_phase` or `n_points_sim`; neither is read afterwards, and they are
populated here with the values that do not affect any observable. -/
def explicitState (c : Config) (z0 v0 : ℝ) : SimState :=
  let n_points := pyInt ((c.total_time : ℝ) * (c.sampling_rate : ℝ))
  { trigger_phase := 0
    n_points := n_points
    n_points_sim := n_points
    t := (List.range n_points.toNat).map
      (fun i : ℕ => (i : ℝ) / (c.sampling_rate : ℝ))
    t0 := (c.trigger : ℝ)
    z0 := z0
    v0 := v0 }

/-- Python list/array slicing `l[a:b]` with unit step: negative bounds count
from the end, and both bounds are clamped to the list. -/
def pySlice {α : Type} (l : List α) (a b : ℤ) : List α :=
  let n : ℤ := l.length
  let a' : ℤ := if a < 0 then max (n + a) 0 else min a n
  let b' : ℤ := if b < 0 then max (n + b) 0 else min b n
  (l.take b'.toNat).drop a'.toNat

/-- The integration-and-trimming tail of `simulate`: one `odeint` output row
per entry of the extended time vector (the solver itself is the abstract
`sol`, a function of the initial condition and the time), then
`Z[(t0_idx - tidx):(t0_idx + n_points - tidx), 0]`. -/
def trim (c : Config) (sol : ℝ → ℝ → ℝ → ℝ) (st : SimState) : List ℝ :=
  let Zfull := st.t.map (sol st.z0 st.v0)
  let t0_idx := pyInt (st.t0 * (c.sampling_rate : ℝ))
  let tidx := pyInt ((c.trigger : ℝ) * (c.sampling_rate : ℝ))
  pySlice Zfull (t0_idx - tidx) (t0_idx + st.n_points - tidx)

end

/-- The Python value passed as the optional `Z0` argument of `simulate`:
absent (`None`), a list, a 1-D numpy array, or a number (floats model any
non-sequence truthy value). -/
inductive PyInit where
  | none
  | list (l : List ℚ)
  | ndarray (l : List ℚ)
  | num (q : ℚ)
  deriving DecidableEq

/-- How `simulate` can raise before integrating. -/
inductive SimErr where
  | truthAmbiguous -- `if Z0:` on an array of two or more elements ("The truth
                   -- value of an array with more than one element is
                   -- ambiguous")
  | typeErr        -- `TypeError('Must be 2-size array or list')`
  | valueErr       -- `ValueError('Must specify exactly [z0, v0]')`
  deriving DecidableEq

/-- The evaluation of `if Z0:` — Python truthiness.  `None` and the empty
list are falsy; a non-empty list is truthy; `bool()` of a single-element
numpy array is the truth value of its entry, of an empty array is `False`
(numpy of the source's era, with a `DeprecationWarning`), and of a longer
array raises `ValueError`. -/
def pyTruthy (z : PyInit) : Except SimErr Bool :=
  match z with
  | .none => .ok false
  | .list l => .ok (!l.isEmpty)
  | .ndarray [] => .ok false
  | .ndarray [x] => .ok (decide (x ≠ 0))
  | .ndarray (_ :: _ :: _) => .error .truthAmbiguous
  | .num q => .ok (decide (q ≠ 0))

/-- The head pair of a rational list, as reals (the `[z0, v0]` contents of an
accepted explicit initial condition). -/
noncomputable def headPair (l : List ℚ) : ℝ × ℝ :=
  match l with
  | a :: b :: _ => ((a : ℝ), (b : ℝ))
  | [a] => ((a : ℝ), 0)
  | [] => (0, 0)

/-- `Cantilever.simulate(trigger_phase, Z0)`: the `if Z0:` truthiness test,
the `isinstance`/length validation of a truthy explicit initial condition,
then either the explicit-`Z0` branch or `set_conditions`, followed by
integration over the stored time vector and trimming.  The returned value is
the trimmed waveform `self.Z` (diagnostics are pass-through from the external
solver and are not modelled). -/
noncomputable def simulate (c : Config) (sol : ℝ → ℝ → ℝ → ℝ) (deg : ℝ)
    (z : PyInit) : Except SimErr (List ℝ) :=
  match pyTruthy z with
  | .error e => .error e
  | .ok true =>
    match z with
    | .list l =>
      if l.length = 2 then .ok (trim c sol (explicitState c (headPair l).1 (headPair l).2))
      else .error .valueErr
    | .ndarray l =>
      if l.length = 2 then .ok (trim c sol (explicitState c (headPair l).1 (headPair l).2))
      else .error .valueErr
    | _ => .error .typeErr
  | .ok false => .ok (trim c sol (setConditions c deg))

end FFTA
namespace FFTA

open Real

/-! Arithmetic facts about `fmod`, `pyInt` and `pySlice`. -/

theorem fmod_nonneg (x m : ℝ) (hm : 0 < m) : 0 ≤ fmod x m := by
  have h1 : (⌊x / m⌋ : ℝ) ≤ x / m := Int.floor_le _
  have h2 : m * (⌊x / m⌋ : ℝ) ≤ m * (x / m) :=
    mul_le_mul_of_nonneg_left h1 hm.le
  have h3 : m * (x / m) = x := by field_simp
  simp only [fmod, sub_nonneg]
  calc m * (⌊x / m⌋ : ℝ) ≤ m * (x / m) := h2
    _ = x := h3

theorem fmod_lt (x m : ℝ) (hm : 0 < m) : fmod x m < m := by
  have h1 : x / m < (⌊x / m⌋ : ℝ) + 1 := Int.lt_floor_add_one _
  have h2 : m * (x / m) < m * ((⌊x / m⌋ : ℝ) + 1) :=
    (mul_lt_mul_left hm).mpr h1
  have h3 : m * (x / m) = x := by field_simp
  simp only [fmod, sub_lt_iff_lt_add]
  nlinarith [h2, h3]

theorem fmod_add_right (x m : ℝ) (hm : m ≠ 0) : fmod (x + m) m = fmod x m := by
  have h : (x + m) / m = x / m + 1 := by field_simp
  simp only [fmod, h]
  push_cast [Int.floor_add_one]
  ring

theorem fmod_sub_right (x m : ℝ) (hm : m ≠ 0) : fmod (x - m) m = fmod x m := by
  have h := fmod_add_right (x - m) m hm
  simpa using h.symm

theorem pyInt_of_nonneg (x : ℝ) (h : 0 ≤ x) : pyInt x = ⌊x⌋ := if_pos h

theorem floor_add_le (x y : ℝ) : ⌊x + y⌋ ≤ ⌊x⌋ + ⌊y⌋ + 1 := by
  have hx := Int.lt_floor_add_one x
  have hy := Int.lt_floor_add_one y
  have h : ⌊x + y⌋ < ⌊x⌋ + ⌊y⌋ + 2 := Int.floor_lt.mpr (by push_cast; linarith)
  omega

theorem two_mul_floor_le (u : ℝ) : 2 * ⌊u⌋ ≤ ⌊2 * u⌋ := by
  apply Int.le_floor.mpr
  have := Int.floor_le u
  push_cast
  linarith

theorem pySlice_length {α : Type} (l : List α) (a b : ℤ)
    (ha : 0 ≤ a) (hab : a ≤ b) (hb : b ≤ (l.length : ℤ)) :
    ((pySlice l a b).length : ℤ) = b - a := by
  have ha' : ¬ a < 0 := not_lt.mpr ha
  have hb0 : ¬ b < 0 := not_lt.mpr (le_trans ha hab)
  have hmina : min a (l.length : ℤ) = a := min_eq_left (le_trans hab hb)
  have hminb : min b (l.length : ℤ) = b := min_eq_left hb
  simp only [pySlice, ha', hb0, if_false, hmina, hminb, List.length_drop,
    List.length_take]
  have h1 : b.toNat ≤ l.length := by omega
  have h2 : min b.toNat l.length = b.toNat := min_eq_left h1
  omega

end FFTA
namespace FFTA

open Real

/-! ### Concrete instances used by witnesses and counterexamples -/

/-- A concrete configuration: resonance and drive at 100 Hz, sampling at
10 kHz, trigger at 5 ms⁻¹·... (1/200 s), total time 0.35 ms (so that
`total_time * sampling_rate = 3.5` has a fractional part). -/
def cEx : Config :=
  { amp_invols := 1
    def_invols := 1
    soft_amp := 1
    drive_freq := 100
    res_freq := 100
    k := 1
    q_factor := 432
    es_force := 1
    delta_freq := 1
    tau := 1
    trigger := 1 / 200
    total_time := 7 / 20000
    sampling_rate := 10000 }

/-- A trivial stand-in for the external ODE solver. -/
def solZero : ℝ → ℝ → ℝ → ℝ := fun _ _ _ => 0

end FFTA

namespace FFTA

open Real

/-! ### Claim C7: trigger-phase periodicity of `set_conditions` -/

theorem trigPhase_add_360 (deg : ℝ) : trigPhase (deg + 360) = trigPhase deg := by
  have h2π : (2 : ℝ) * π ≠ 0 := by positivity
  have h : π * (deg + 360) / 180 = π * deg / 180 + 2 * π := by ring
  rw [trigPhase, h, fmod_add_right _ _ h2π, trigPhase]

theorem trigPhase_sub_360 (deg : ℝ) : trigPhase (deg - 360) = trigPhase deg := by
  have h2π : (2 : ℝ) * π ≠ 0 := by positivity
  have h : π * (deg - 360) / 180 = π * deg / 180 - 2 * π := by ring
  rw [trigPhase, h, fmod_sub_right _ _ h2π, trigPhase]

/-- Claim C7: for every configuration and every requested trigger phase in
degrees, calling `set_conditions` with `trigger_phase + 360` or with
`trigger_phase - 360` produces exactly the same resolved trigger conditions
(the same normalized trigger phase, sample counts, time vector, resolved
trigger time `t0` and initial conditions) as calling it with
`trigger_phase`. -/
theorem setConditions_mod_360 (c : Config) (deg : ℝ) :
    setConditions c (deg + 360) = setConditions c deg ∧
    setConditions c (deg - 360) = setConditions c deg := by
  constructor <;>
    simp only [setConditions, trigPhase_add_360, trigPhase_sub_360]

/-! ### Claim C5: derived constants at exact resonance -/

/-- Claim C5: when the drive frequency equals the resonance frequency the
constructor's derived constants are well-defined (the divide-by-zero in the
phase-lag formula is absorbed by the `arctan(±inf)` limit, so construction
does not raise) and satisfy `delta = π/2` and `f0 = amp * 2 * beta * wd`. -/
theorem delta_f0_at_resonance (c : Config) (h : c.drive_freq = c.res_freq)
    (hq : 0 < c.q_factor) :
    delta c = π / 2 ∧ f0 c = amp c * (2 * beta c * wd c) := by
  have hww : w0 c = wd c := by rw [w0, wd, h]
  have hzero : w0 c ^ 2 - wd c ^ 2 = 0 := by rw [hww]; ring
  refine ⟨by rw [delta, if_pos hzero], ?_⟩
  rw [f0, hzero]
  have hq' : (0 : ℝ) < (c.q_factor : ℝ) := by exact_mod_cast hq
  have hb : 0 ≤ beta c * wd c := by
    have hbw : beta c * wd c = wd c ^ 2 / (2 * (c.q_factor : ℝ)) := by
      rw [beta, hww]; ring
    rw [hbw]; positivity
  have hsq : (0 : ℝ) ^ 2 + 4 * beta c ^ 2 * wd c ^ 2 = (2 * beta c * wd c) ^ 2 := by
    ring
  rw [hsq, Real.sqrt_sq (by nlinarith [hb])]

/-- Witness for claim C5 at the concrete configuration `cEx` (drive and
resonance both 100 Hz, quality factor 432). -/
theorem delta_f0_at_resonance_witness :
    cEx.drive_freq = cEx.res_freq ∧ 0 < cEx.q_factor ∧
    (delta cEx = π / 2 ∧ f0 cEx = amp cEx * (2 * beta cEx * wd cEx)) :=
  ⟨rfl, by decide, delta_f0_at_resonance cEx rfl (by decide)⟩

end FFTA
deriving instance DecidableEq for Except

namespace FFTA

/-! ### Claim C2: the downsampler's validation and output length -/

/-- Claim C2 (amended): `downsample(target_rate)` raises its input-validation
`ValueError` iff `target_rate > sampling_rate` (strict: a target equal to the
current rate is accepted); whenever any error is raised the stored waveform
is left unchanged; and for a positive `target_rate` (and nonnegative
`total_time`), whenever the call completes, the overwritten waveform has
length `int(total_time * target_rate)` (Python `int` truncation; for
negative target rates the call can instead complete through numpy's
inferred-dimension `reshape`, outside the spec's domain of rates). -/
theorem downsample_spec (c : Config) (Z : List ℚ) (target : ℚ) :
    (isTargetTooHigh (downsample c Z target) = true ↔ target > c.sampling_rate) ∧
    (∀ e, downsample c Z target = .error e → downsampleRun c Z target = Z) ∧
    (0 < target → 0 ≤ c.total_time → ∀ Z', downsample c Z target = .ok Z' →
      (Z'.length : ℤ) = pyIntQ (c.total_time * target)) := by
  refine ⟨?_, ?_, ?_⟩
  · by_cases h1 : target > c.sampling_rate
    · simp [downsample, h1, isTargetTooHigh]
    · simp only [h1, iff_false]
      intro hx
      simp only [downsample, if_neg h1] at hx
      repeat' split at hx
      all_goals simp [isTargetTooHigh] at hx
  · intro e he
    simp [downsampleRun, he]
  · intro hpos htt Z' h
    have httt : (0 : ℚ) ≤ c.total_time * target := mul_nonneg htt hpos.le
    have hnpge : 0 ≤ pyIntQ (c.total_time * target) := by
      simp only [pyIntQ, if_pos httt]
      exact Int.floor_nonneg.mpr httt
    by_cases h1 : target > c.sampling_rate
    · simp [downsample, h1] at h
    · simp only [downsample, if_neg h1, if_neg hpos.ne'] at h
      split at h
      · exact Except.noConfusion h
      · split at h
        next hneg => exact absurd hnpge (by omega)
        next hneg =>
          split at h
          · split at h
            next hlen =>
              injection h with h'
              rw [← h', List.length_map]
              exact hlen
            next hlen => exact Except.noConfusion h
          · split at h
            next hlen =>
              injection h with h'
              rw [← h', List.length_map]
              exact hlen
            next hlen => exact Except.noConfusion h

/-- Witness for claim C2: on `cEx` (sampling rate 10 kHz), a 20 kHz target is
rejected by the validation check and leaves the waveform unchanged, and a
completing 5 kHz target (positive, with the nonnegative total time)
overwrites the waveform with one of the truncated length. -/
theorem downsample_spec_witness :
    isTargetTooHigh (downsample cEx [1, 2, 3] 20000) = true ∧
    downsampleRun cEx [1, 2, 3] 20000 = [1, 2, 3] ∧
    ((0 : ℚ) < 5000 ∧ 0 ≤ cEx.total_time ∧
      ((downsampleRun cEx [1, 2] 5000).length : ℤ) =
        pyIntQ (cEx.total_time * 5000)) := by
  refine ⟨(downsample_spec cEx [1, 2, 3] 20000).1.mpr (by decide),
    (downsample_spec cEx [1, 2, 3] 20000).2.1 DownErr.targetTooHigh rfl,
    by norm_num, by norm_num [cEx], ?_⟩
  have hstep : pyIntQ (cEx.sampling_rate / 5000) = 2 := by
    norm_num [pyIntQ, cEx]
  have hnp : pyIntQ (cEx.total_time * 5000) = 1 := by
    norm_num [pyIntQ, cEx]
  have hstride : strideEvery [1, 2] (Int.toNat 2) = ([1] : List ℚ) := by decide
  have hok : downsample cEx [1, 2] 5000 = .ok [1] := by
    simp only [downsample, hstep, hnp]
    norm_num [hstride, cEx, div_one]
  have h := (downsample_spec cEx [1, 2] 5000).2.2 (by norm_num)
    (by norm_num [cEx]) [1] hok
  simpa [downsampleRun, hok] using h

/-- A configuration with sampling rate 10 Hz and total time 0.1 s, used to
exhibit the negative-target-rate path of `downsample`. -/
def cNeg : Config :=
  { amp_invols := 1, def_invols := 1, soft_amp := 1, drive_freq := 1,
    res_freq := 1, k := 1, q_factor := 1, es_force := 1, delta_freq := 1,
    tau := 1, trigger := 0, total_time := 1 / 10, sampling_rate := 10 }

/-- A negative target rate passes the strict validation check, produces the
negative step −1 (so `Z[0::-1]` keeps just the first sample) and the negative
`n_points` −1 (numpy's inferred reshape dimension), and the call completes —
it does not raise, and the resulting length 1 is not
`int(total_time * target_rate) = −1`.  This is why the completion-length
clause of `downsample_spec` is stated for positive target rates. -/
theorem downsample_negative_target_completes :
    downsample cNeg [1, 2, 3] (-10) = .ok [1] ∧
    pyIntQ (cNeg.total_time * (-10)) = -1 := by
  have hceil : ⌈(-1 : ℚ)⌉ = -1 := by
    rw [show (-1 : ℚ) = ((-1 : ℤ) : ℚ) by norm_num, Int.ceil_intCast]
  have hstep : pyIntQ (cNeg.sampling_rate / (-10)) = -1 := by
    norm_num [pyIntQ, cNeg, hceil]
  have hnp : pyIntQ (cNeg.total_time * (-10)) = -1 := by
    norm_num [pyIntQ, cNeg, hceil]
  refine ⟨?_, hnp⟩
  simp only [downsample, hstep, hnp]
  norm_num [cNeg, div_one]

/-- Claim C2 counterexample: the claim asserts the validation error is raised
whenever `target_rate ≥ sampling_rate`, but a target exactly equal to the
sampling rate (10 kHz on `cEx`) is accepted and the call completes. -/
theorem downsample_eq_rate_counterexample :
    (10000 : ℚ) ≥ cEx.sampling_rate ∧
    downsample cEx [1, 2, 3] 10000 = .ok [1, 2, 3] ∧
    isTargetTooHigh (downsample cEx [1, 2, 3] 10000) = false := by
  have hstep : pyIntQ (cEx.sampling_rate / 10000) = 1 := by
    norm_num [pyIntQ, cEx]
  have hnp : pyIntQ (cEx.total_time * 10000) = 3 := by
    norm_num [pyIntQ, cEx]
  have hstride : strideEvery [1, 2, 3] 1 = ([1, 2, 3] : List ℚ) := by decide
  have hok : downsample cEx [1, 2, 3] 10000 = .ok [1, 2, 3] := by
    simp only [downsample, hstep, hnp]
    norm_num [hstride, cEx, div_one]
  exact ⟨by decide, hok, by rw [hok]; rfl⟩

end FFTA

namespace FFTA

/-! ### Claim C9: the per-line fan-out -/

/-- Claim C9: for a 2-D signal array whose number of columns is a (positive)
multiple of `n_pixels`, `Line.get_tfp` splits the columns into `n_pixels`
consecutive segments, delegates each segment to the external per-pixel
analyzer, and returns the parallel `tfp` and `shift` arrays, each holding
exactly one entry — the analyzer's output for that segment — per pixel. -/
theorem lineGetTfp_spec {α : Type} (f : List (List ℚ) → α → ℚ × ℚ)
    (ln : LineData α) (h1 : 0 < ln.n_pixels)
    (h2 : ln.n_pixels ∣ ln.signal_cols.length) :
    lineGetTfp f ln =
      some
        ((chunksOf (ln.signal_cols.length / ln.n_pixels) ln.n_pixels
            ln.signal_cols).map (fun s => (f s ln.params).1),
         (chunksOf (ln.signal_cols.length / ln.n_pixels) ln.n_pixels
            ln.signal_cols).map (fun s => (f s ln.params).2)) ∧
    (lineGetTfp f ln).map (fun r => (r.1.length, r.2.length)) =
      some (ln.n_pixels, ln.n_pixels) := by
  have hs : npSplitCols ln.signal_cols ln.n_pixels =
      some (chunksOf (ln.signal_cols.length / ln.n_pixels) ln.n_pixels
        ln.signal_cols) := by
    simp [npSplitCols, h1, h2]
  constructor
  · rw [lineGetTfp, hs, Option.map_some']
    rw [unzip_map_pair]
  · rw [lineGetTfp, hs, Option.map_some', Option.map_some']
    rw [unzip_map_pair]
    simp [chunksOf_length]

/-- Witness for claim C9: a line of four one-sample columns split over two
pixels, with a concrete stand-in analyzer. -/
theorem lineGetTfp_spec_witness :
    0 < (2 : ℕ) ∧ (2 : ℕ) ∣ ([[1], [2], [3], [4]] : List (List ℚ)).length ∧
    (lineGetTfp (fun s (_ : Unit) => ((s.length : ℚ), 0))
        ⟨[[1], [2], [3], [4]], 2, ()⟩).map (fun r => (r.1.length, r.2.length)) =
      some (2, 2) :=
  ⟨by decide, by decide,
   (lineGetTfp_spec (fun s (_ : Unit) => ((s.length : ℚ), 0))
      ⟨[[1], [2], [3], [4]], 2, ()⟩ (by decide) (by decide)).2⟩

end FFTA
namespace FFTA

/-! ### Claims C3 and C10: validation of the explicit initial condition -/

/-- Claim C3 (the code diverges from it): an empty list passed as the
explicit initial condition is malformed (it is not a length-2 sequence), yet
`if Z0:` is false for `[]`, so `simulate` silently falls into the
`set_conditions` branch, performs the full integration, and raises
nothing. -/
theorem simulate_empty_list_not_validated :
    simulate cEx solZero 180 (PyInit.list []) = simulate cEx solZero 180 PyInit.none ∧
    simulate cEx solZero 180 (PyInit.list []) =
      .ok (trim cEx solZero (setConditions cEx 180)) :=
  ⟨rfl, rfl⟩

/-- Claim C10 counterexample: the claim asserts every non-empty numpy array
raises at the truthiness test, but the non-empty singleton array `[0.]` is
falsy, so `simulate` raises nothing at all and runs the analytic path. -/
theorem simulate_ndarray_counterexample :
    (PyInit.ndarray [0] ≠ PyInit.none) ∧ ([0] : List ℚ) ≠ [] ∧
    simulate cEx solZero 180 (PyInit.ndarray [0]) =
      .ok (trim cEx solZero (setConditions cEx 180)) :=
  ⟨by simp, by simp, rfl⟩

/-- Claim C10 (amended): a numpy array of two or more elements (including the
well-formed 2-element array the interface documents) raises at the `if Z0:`
truthiness test, before any validation or integration; a singleton array is
truth-tested by its entry — nonzero falls through to the wrong-length
`ValueError`, zero is silently treated as no initial condition — and an
empty list is silently treated as no initial condition (the analytic
phase-solver path runs) instead of raising the wrong-length validation
error. -/
theorem simulate_truthiness_edge_cases (c : Config) (sol : ℝ → ℝ → ℝ → ℝ)
    (deg : ℝ) (l : List ℚ) :
    (2 ≤ l.length → simulate c sol deg (PyInit.ndarray l) = .error .truthAmbiguous) ∧
    (∀ x : ℚ, l = [x] → x ≠ 0 →
      simulate c sol deg (PyInit.ndarray l) = .error .valueErr) ∧
    simulate c sol deg (PyInit.list []) =
      .ok (trim c sol (setConditions c deg)) := by
  refine ⟨?_, ?_, rfl⟩
  · intro h2
    match l, h2 with
    | a :: b :: rest, _ => rfl
  · intro x hx hx0
    subst hx
    have ht : pyTruthy (PyInit.ndarray [x]) = .ok true := by
      simp [pyTruthy, hx0]
    simp [simulate, ht]

/-- Witness for claim C10 at concrete inputs: the two-element array `[5, 6]`
raises the ambiguous-truth-value error, and the nonzero singleton `[5]`
raises the wrong-length `ValueError`. -/
theorem simulate_truthiness_edge_cases_witness :
    2 ≤ ([5, 6] : List ℚ).length ∧
    simulate cEx solZero 180 (PyInit.ndarray [5, 6]) = .error .truthAmbiguous ∧
    simulate cEx solZero 180 (PyInit.ndarray [5]) = .error .valueErr :=
  ⟨by decide,
   (simulate_truthiness_edge_cases cEx solZero 180 [5, 6]).1 (by decide),
   (simulate_truthiness_edge_cases cEx solZero 180 [5]).2.1 5 rfl (by decide)⟩

end FFTA
namespace FFTA

/-! ### Claims C4, C6, C8: constructor dictionary ownership and parameter
consolidation -/

theorem pyLookup_isSome_iff_mem (d : Dict) (k : String) :
    (pyLookup d k).isSome ↔ k ∈ dictKeys d := by
  constructor
  · intro h
    by_contra hk
    rw [(pyLookup_eq_none_iff d k).mpr hk] at h
    simp at h
  · intro hk
    cases hx : pyLookup d k with
    | some w => simp
    | none => exact absurd ((pyLookup_eq_none_iff d k).mp hx) (by simp [hk])

theorem pyLookup_pyUpdate_self (d : Dict) (k : String)
    (hnd : (dictKeys d).Nodup) : pyLookup (pyUpdate d d) k = pyLookup d k := by
  cases hx : pyLookup d k with
  | some w => exact pyLookup_pyUpdate_of_lookup_some d d k w hnd hx
  | none => rw [pyLookup_pyUpdate_of_lookup_none d d k hx, hx]

/-- Resolution of one recognized key `k` (with hard default `v`) against an
explicit override dictionary `given` and the instance attributes `attrs`,
as merged into a bundle: explicit value first, else attribute, else the
default. -/
theorem lookup_update_fill_mem (bundle attrs given : Dict)
    (tbl : List (String × PVal)) (k : String) (v : PVal)
    (hnd_tbl : (tbl.map Prod.fst).Nodup) (hgiven : (dictKeys given).Nodup)
    (hmem : (k, v) ∈ tbl) :
    pyLookup (pyUpdate bundle (fillGroup attrs tbl given)) k =
      some ((pyLookup given k).getD ((pyLookup attrs k).getD v)) := by
  have h1 := pyLookup_fillGroup_mem attrs tbl given k v hnd_tbl hmem
  exact pyLookup_pyUpdate_of_lookup_some _ _ _ _
    (dictKeys_nodup_fillGroup _ _ _ hgiven) h1

/-- A key that is neither recognized by the table nor mentioned by the
explicit override dictionary is untouched by the merge. -/
theorem lookup_update_fill_not_mem (bundle attrs given : Dict)
    (tbl : List (String × PVal)) (k : String)
    (h1 : k ∉ tbl.map Prod.fst) (h2 : k ∉ dictKeys given) :
    pyLookup (pyUpdate bundle (fillGroup attrs tbl given)) k =
      pyLookup bundle k := by
  apply pyLookup_pyUpdate_of_lookup_none
  rw [pyLookup_fillGroup_of_not_mem _ _ _ _ h1]
  exact (pyLookup_eq_none_iff _ _).mpr h2

set_option maxHeartbeats 2000000 in
/-- Claim C6 (amended): in each of the three groups, every call to
`create_parameters` resolves every recognized key by the precedence
"explicit caller-supplied override, else the instance's own attribute when
present, else the hard default", and writes that resolution into the
instance's persistent bundle.  Because every recognized key is re-resolved
on every call, a key resolved by an earlier call persists only until a later
call re-resolves it: a later call that does not mention the key overwrites it
with the attribute/default resolution (it does not merely "add or override
the keys it explicitly mentions").  Unrecognized keys that the call does not
mention do persist unchanged. -/
theorem createParameters_precedence (s : CState) (pe ce fe : Dict)
    (hpe : (dictKeys pe).Nodup) (hce : (dictKeys ce).Nodup)
    (hfe : (dictKeys fe).Nodup) :
    (∀ kv ∈ paramsTable,
      pyLookup (createParametersCore s pe ce fe).1.parameters kv.1 =
        some ((pyLookup pe kv.1).getD ((pyLookup s.attrs kv.1).getD kv.2))) ∧
    (∀ kv ∈ canParamsTable,
      pyLookup (createParametersCore s pe ce fe).1.can_params kv.1 =
        some ((pyLookup ce kv.1).getD ((pyLookup s.attrs kv.1).getD kv.2))) ∧
    (∀ kv ∈ fitParamsTable,
      pyLookup (createParametersCore s pe ce fe).1.fit_params kv.1 =
        some ((pyLookup fe kv.1).getD ((pyLookup s.attrs kv.1).getD kv.2))) ∧
    (∀ k : String, k ∉ paramsTable.map Prod.fst → k ∉ dictKeys pe →
      pyLookup (createParametersCore s pe ce fe).1.parameters k =
        pyLookup s.parameters k) := by
  refine ⟨?_, ?_, ?_, ?_⟩
  · intro kv hkv
    obtain ⟨k, v⟩ := kv
    exact lookup_update_fill_mem s.parameters s.attrs pe paramsTable k v
      (by decide) hpe hkv
  · intro kv hkv
    obtain ⟨k, v⟩ := kv
    exact lookup_update_fill_mem s.can_params s.attrs ce canParamsTable k v
      (by decide) hce hkv
  · intro kv hkv
    obtain ⟨k, v⟩ := kv
    exact lookup_update_fill_mem s.fit_params s.attrs fe fitParamsTable k v
      (by decide) hfe hkv
  · intro k h1 h2
    exact lookup_update_fill_not_mem s.parameters s.attrs pe paramsTable k h1 h2

set_option maxHeartbeats 2000000 in
/-- Witness for claim C6 at a concrete instance: with `roi` supplied
explicitly it resolves to the override; `drive_freq` (present as an instance
attribute) resolves to the attribute; `n_taps` (absent everywhere) resolves
to the hard default 799. -/
theorem createParameters_precedence_witness :
    pyLookup
      (createParametersCore ⟨[("drive_freq", PVal.num 1000)], [], [], []⟩
        [("roi", PVal.num 99)] [] []).1.parameters ("roi") = some (PVal.num 99) ∧
    pyLookup
      (createParametersCore ⟨[("drive_freq", PVal.num 1000)], [], [], []⟩
        [("roi", PVal.num 99)] [] []).1.parameters ("drive_freq") =
      some (PVal.num 1000) ∧
    pyLookup
      (createParametersCore ⟨[("drive_freq", PVal.num 1000)], [], [], []⟩
        [("roi", PVal.num 99)] [] []).1.parameters ("n_taps") =
      some (PVal.num 799) := by
  have h := createParameters_precedence ⟨[("drive_freq", PVal.num 1000)], [], [], []⟩
    [("roi", PVal.num 99)] [] [] (by decide) (by decide) (by decide)
  refine ⟨?_, ?_, ?_⟩
  · have hx := h.1 ("roi", PVal.num (3 / 10000)) (by simp [paramsTable])
    rw [hx]
    simp [pyLookup]
  · have hx := h.1 ("drive_freq", PVal.num 277261) (by simp [paramsTable])
    rw [hx]
    simp [pyLookup]
  · have hx := h.1 ("n_taps", PVal.num 799) (by simp [paramsTable])
    rw [hx]
    simp [pyLookup]

theorem createParametersCore_parameters (s : CState) (pe ce fe : Dict) :
    (createParametersCore s pe ce fe).1.parameters =
      pyUpdate s.parameters (fillGroup s.attrs paramsTable pe) := rfl

theorem createParametersCore_attrs (s : CState) (pe ce fe : Dict) :
    (createParametersCore s pe ce fe).1.attrs = s.attrs := rfl

set_option maxHeartbeats 2000000 in
/-- Claim C6 counterexample: resolve `roi` to an explicit override 99, then
run a second `create_parameters` call that does not mention `roi` at all —
the claim says the previously resolved key persists, but the code overwrites
it with the hard default 0.0003. -/
theorem createParameters_persistence_counterexample :
    pyLookup
      (createParametersCore
        (createParametersCore ⟨[], [], [], []⟩
          [("roi", PVal.num 99)] [] []).1 [] [] []).1.parameters ("roi") =
      some (PVal.num (3 / 10000)) ∧
    ¬ pyLookup
        (createParametersCore
          (createParametersCore ⟨[], [], [], []⟩
            [("roi", PVal.num 99)] [] []).1 [] [] []).1.parameters ("roi") =
        some (PVal.num 99) := by
  have h1 :
      pyLookup
        (createParametersCore
          (createParametersCore ⟨[], [], [], []⟩
            [("roi", PVal.num 99)] [] []).1 [] [] []).1.parameters ("roi") =
        some (PVal.num (3 / 10000)) := by
    rw [createParametersCore_parameters]
    have h := lookup_update_fill_mem
      (createParametersCore ⟨[], [], [], []⟩ [("roi", PVal.num 99)] [] []).1.parameters
      (createParametersCore ⟨[], [], [], []⟩ [("roi", PVal.num 99)] [] []).1.attrs
      [] paramsTable ("roi") (PVal.num (3 / 10000)) (by decide) (by decide)
      (by simp [paramsTable])
    rw [h, createParametersCore_attrs]
    simp [pyLookup]
  refine ⟨h1, ?_⟩
  intro h2
  have h3 := h1.symm.trans h2
  simp only [Option.some.injEq, PVal.num.injEq] at h3
  norm_num at h3

end FFTA
namespace FFTA

/-! ### Claim C8: the shared default-argument dictionaries leak state across
instances -/

theorem createParametersCall_state_defaults (g : GDefaults) (s : CState) :
    (createParametersCall g s .none .none .none).1 =
      (createParametersCore s g.p g.c g.f).1 := rfl

theorem createParametersCall_defaults_p (g : GDefaults) (s : CState) :
    (createParametersCall g s .none .none .none).2.p =
      fillGroup s.attrs paramsTable g.p := rfl

/-- An instance whose constructor inputs gave it `drive_freq = 1000` (only
the attribute relevant to the scenario is populated). -/
def sA : CState := ⟨[("drive_freq", PVal.num 1000)], [], [], []⟩

/-- A second, independent instance with `drive_freq = 2000`. -/
def sB : CState := ⟨[("drive_freq", PVal.num 2000)], [], [], []⟩

/-- Claim C8 (the code diverges from it): `create_parameters`'s default
arguments `params={}, can_params={}, fit_params={}` are three dictionaries
created once and shared by every call on every instance, and the body fills
the passed dictionary in place.  So after instance `sA` (with
`drive_freq = 1000`) runs a zero-argument `create_parameters`, the shared
default dictionary holds `sA`'s resolutions, and a zero-argument
`create_parameters` on the unrelated instance `sB` (with
`drive_freq = 2000`) resolves `drive_freq` to `sA`'s 1000 instead of its own
2000 — the consolidation of one instance changes what a different instance
subsequently resolves. -/
theorem createParameters_cross_instance_interference :
    pyLookup ((createParametersCall
        ((createParametersCall gInit sA .none .none .none).2)
        sB .none .none .none).1.parameters) ("drive_freq") =
      some (PVal.num 1000) ∧
    pyLookup ((createParametersCall gInit sB .none .none .none).1.parameters)
      ("drive_freq") = some (PVal.num 2000) ∧
    pyLookup ((createParametersCall
        ((createParametersCall gInit sA .none .none .none).2)
        sB .none .none .none).1.parameters) ("drive_freq") ≠
      pyLookup ((createParametersCall gInit sB .none .none .none).1.parameters)
        ("drive_freq") := by
  have htbl : (paramsTable.map Prod.fst).Nodup := by decide
  have hmem : ("drive_freq", PVal.num 277261) ∈ paramsTable := by
    simp [paramsTable]
  have h1 : pyLookup ((createParametersCall
      ((createParametersCall gInit sA .none .none .none).2)
      sB .none .none .none).1.parameters) ("drive_freq") =
      some (PVal.num 1000) := by
    rw [createParametersCall_state_defaults, createParametersCore_parameters,
      createParametersCall_defaults_p]
    have hnd : (dictKeys (fillGroup sA.attrs paramsTable gInit.p)).Nodup :=
      dictKeys_nodup_fillGroup _ _ _ (by decide)
    rw [lookup_update_fill_mem sB.parameters sB.attrs _ paramsTable
      ("drive_freq") (PVal.num 277261) htbl hnd hmem]
    rw [pyLookup_fillGroup_mem sA.attrs paramsTable gInit.p
      ("drive_freq") (PVal.num 277261) htbl hmem]
    simp [pyLookup, sA, sB, gInit]
  have h2 : pyLookup ((createParametersCall gInit sB .none .none .none).1.parameters)
      ("drive_freq") = some (PVal.num 2000) := by
    rw [createParametersCall_state_defaults, createParametersCore_parameters]
    rw [lookup_update_fill_mem sB.parameters sB.attrs gInit.p paramsTable
      ("drive_freq") (PVal.num 277261) htbl (by decide) hmem]
    simp [pyLookup, sB, gInit]
  refine ⟨h1, h2, ?_⟩
  rw [h1, h2]
  simp only [ne_eq, Option.some.injEq, PVal.num.injEq]
  norm_num

end FFTA

namespace FFTA

/-! ### Claim C4: constructor ownership of the three input dictionaries -/

theorem constructCantilever_callerSim (can force sim : Dict) (g : GDefaults) :
    (constructCantilever can force sim g).callerSim = sim := rfl

theorem constructCantilever_callerForce (can force sim : Dict) (g : GDefaults) :
    (constructCantilever can force sim g).callerForce =
      pyUpdate
        (fillGroup (pyUpdate (pyUpdate (pyUpdate [] can) force) sim)
          paramsTable (pyUpdate force sim))
        (fillGroup (pyUpdate (pyUpdate (pyUpdate [] can) force) sim)
          paramsTable (pyUpdate force sim)) := rfl

/-- Claim C4 (amended): construction does not copy the caller's dictionaries.
`sim_params` alone is left unmutated (and is not stored); `force_params` is
stored as the simulator's `parameters` bundle (the same object) and
`can_params` as its `can_params` bundle, and the caller's `force_params` is
mutated: the three simulation keys are merged into it and every recognized
analysis key is inserted, while its keys that do not collide with
`sim_params` keep their values. -/
theorem construct_aliasing_mutation (can force sim : Dict) (g : GDefaults)
    (hforce : (dictKeys force).Nodup) (hsim : (dictKeys sim).Nodup) :
    (constructCantilever can force sim g).callerSim = sim ∧
    (constructCantilever can force sim g).callerForce =
      (constructCantilever can force sim g).state.parameters ∧
    (constructCantilever can force sim g).callerCan =
      (constructCantilever can force sim g).state.can_params ∧
    (∀ k, k ∈ dictKeys sim →
      pyLookup (constructCantilever can force sim g).callerForce k =
        pyLookup sim k) ∧
    (∀ k, k ∈ dictKeys force → k ∉ dictKeys sim →
      pyLookup (constructCantilever can force sim g).callerForce k =
        pyLookup force k) ∧
    (∀ kv, kv ∈ paramsTable →
      pyContains (constructCantilever can force sim g).callerForce kv.1 = true) := by
  have hP0 : (dictKeys (pyUpdate force sim)).Nodup :=
    dictKeys_nodup_pyUpdate _ _ hforce
  have hpf : (dictKeys (fillGroup (pyUpdate (pyUpdate (pyUpdate [] can) force) sim)
      paramsTable (pyUpdate force sim))).Nodup :=
    dictKeys_nodup_fillGroup _ _ _ hP0
  refine ⟨rfl, rfl, rfl, ?_, ?_, ?_⟩
  · intro k hk
    rw [constructCantilever_callerForce, pyLookup_pyUpdate_self _ _ hpf]
    obtain ⟨w, hw⟩ := Option.isSome_iff_exists.mp
      ((pyLookup_isSome_iff_mem sim k).mpr hk)
    have hupd : pyLookup (pyUpdate force sim) k = some w :=
      pyLookup_pyUpdate_of_lookup_some _ _ _ _ hsim hw
    rw [pyLookup_fillGroup_of_isSome _ _ _ _ (by simp [hupd]), hupd, hw]
  · intro k hk hnk
    rw [constructCantilever_callerForce, pyLookup_pyUpdate_self _ _ hpf]
    obtain ⟨w, hw⟩ := Option.isSome_iff_exists.mp
      ((pyLookup_isSome_iff_mem force k).mpr hk)
    have hupd : pyLookup (pyUpdate force sim) k = pyLookup force k :=
      pyLookup_pyUpdate_of_not_mem _ _ _ hnk
    rw [pyLookup_fillGroup_of_isSome _ _ _ _ (by simp [hupd, hw]), hupd]
  · intro kv hkv
    obtain ⟨k, v⟩ := kv
    rw [pyContains, constructCantilever_callerForce,
      pyLookup_pyUpdate_self _ _ hpf]
    have := pyLookup_fillGroup_isSome_of_mem
      (pyUpdate (pyUpdate (pyUpdate [] can) force) sim) paramsTable
      (pyUpdate force sim) k v (by decide) hkv
    simpa using this

/-- The caller's `can_params` dictionary for the concrete scenario. -/
def canEx : Dict :=
  [("amp_invols", PVal.num 1), ("def_invols", PVal.num 1),
   ("soft_amp", PVal.num 1), ("drive_freq", PVal.num 100),
   ("res_freq", PVal.num 100), ("k", PVal.num 1), ("q_factor", PVal.num 432)]

/-- The caller's `force_params` dictionary for the concrete scenario. -/
def forceEx : Dict :=
  [("es_force", PVal.num 1), ("delta_freq", PVal.num 1), ("tau", PVal.num 1),
   ("v_dc", PVal.num 1), ("v_ac", PVal.num 1), ("v_cpd", PVal.num 1),
   ("dCdz", PVal.num 1)]

/-- The caller's `sim_params` dictionary for the concrete scenario. -/
def simEx : Dict :=
  [("trigger", PVal.num (1 / 200)), ("total_time", PVal.num (7 / 20000)),
   ("sampling_rate", PVal.num 10000)]

/-- Witness for claim C4 at the concrete dictionaries: the caller's
`sim_params` is untouched, its `force_params` aliases the bundle, and the
`sampling_rate` key merged into `force_params` carries `sim_params`'s
value. -/
theorem construct_aliasing_mutation_witness :
    (dictKeys forceEx).Nodup ∧ (dictKeys simEx).Nodup ∧
    (constructCantilever canEx forceEx simEx gInit).callerSim = simEx ∧
    pyLookup (constructCantilever canEx forceEx simEx gInit).callerForce
      ("sampling_rate") = pyLookup simEx ("sampling_rate") :=
  ⟨by decide, by decide,
   (construct_aliasing_mutation canEx forceEx simEx gInit
     (by decide) (by decide)).1,
   (construct_aliasing_mutation canEx forceEx simEx gInit
     (by decide) (by decide)).2.2.2.1 ("sampling_rate") (by decide)⟩

/-- Claim C4 counterexample: the claim says construction never adds a key to
a caller-held dictionary, but after construction the caller's `force_params`
(which had no `trigger` key) holds `trigger` with `sim_params`'s value. -/
theorem construct_mutation_counterexample :
    pyLookup forceEx ("trigger") = none ∧
    pyLookup (constructCantilever canEx forceEx simEx gInit).callerForce
      ("trigger") = some (PVal.num (1 / 200)) := by
  refine ⟨rfl, ?_⟩
  have hpf : (dictKeys (fillGroup
      (pyUpdate (pyUpdate (pyUpdate [] canEx) forceEx) simEx)
      paramsTable (pyUpdate forceEx simEx))).Nodup :=
    dictKeys_nodup_fillGroup _ _ _ (by decide)
  rw [constructCantilever_callerForce, pyLookup_pyUpdate_self _ _ hpf]
  have hupd : pyLookup (pyUpdate forceEx simEx) ("trigger") =
      some (PVal.num (1 / 200)) := rfl
  rw [pyLookup_fillGroup_of_isSome _ _ _ _ (by simp [hupd]), hupd]

end FFTA
namespace FFTA

open Real

/-! ### Claim C1: the trimmed waveform length -/

theorem pyInt_ratCast (q : ℚ) : pyInt ((q : ℝ)) = pyIntQ q := by
  by_cases h : (0 : ℚ) ≤ q
  · simp only [pyInt, pyIntQ, if_pos h,
      if_pos (show (0 : ℝ) ≤ (q : ℝ) by exact_mod_cast h), Rat.floor_cast]
  · simp only [pyInt, pyIntQ, if_neg h,
      if_neg (show ¬ (0 : ℝ) ≤ (q : ℝ) by exact_mod_cast h), Rat.ceil_cast]

theorem simulate_none (c : Config) (sol : ℝ → ℝ → ℝ → ℝ) (deg : ℝ) :
    simulate c sol deg PyInit.none = .ok (trim c sol (setConditions c deg)) := rfl

theorem setConditions_n_points (c : Config) (deg : ℝ) :
    (setConditions c deg).n_points =
      pyInt ((c.total_time : ℝ) * (c.sampling_rate : ℝ)) := rfl

theorem setConditions_n_points_sim (c : Config) (deg : ℝ) :
    (setConditions c deg).n_points_sim =
      pyInt (2 * (c.sampling_rate : ℝ) / (c.res_freq : ℝ)) +
        pyInt ((c.total_time : ℝ) * (c.sampling_rate : ℝ)) := rfl

theorem setConditions_t_eq (c : Config) (deg : ℝ) :
    (setConditions c deg).t =
      (List.range ((setConditions c deg).n_points_sim).toNat).map
        (fun i : ℕ => (i : ℝ) / (c.sampling_rate : ℝ)) := rfl

theorem setConditions_t_length (c : Config) (deg : ℝ) :
    ((setConditions c deg).t).length =
      ((setConditions c deg).n_points_sim).toNat := by
  rw [setConditions_t_eq]
  simp

theorem setConditions_t0 (c : Config) (deg : ℝ) :
    (setConditions c deg).t0 =
      (c.trigger : ℝ) +
        fmod (trigPhase deg - fmod (wd c * (c.trigger : ℝ) - delta c) (2 * π))
          (2 * π) / wd c := rfl

theorem trim_length (c : Config) (sol : ℝ → ℝ → ℝ → ℝ) (st : SimState) :
    (trim c sol st).length =
      (pySlice (st.t.map (sol st.z0 st.v0))
        (pyInt (st.t0 * (c.sampling_rate : ℝ)) -
          pyInt ((c.trigger : ℝ) * (c.sampling_rate : ℝ)))
        (pyInt (st.t0 * (c.sampling_rate : ℝ)) + st.n_points -
          pyInt ((c.trigger : ℝ) * (c.sampling_rate : ℝ)))).length := rfl

/-- Claim C1 (amended): with no explicit initial condition, for every
configuration with `0 < res_freq ≤ drive_freq`, `res_freq ≤ sampling_rate`,
`trigger ≥ 0` and `total_time ≥ 0`, the waveform returned by `simulate` has
length `int(total_time * sampling_rate)` — Python `int` truncation, not
`round` — independent of the trigger time and of the requested trigger
phase. -/
theorem simulate_waveform_length (c : Config) (sol : ℝ → ℝ → ℝ → ℝ) (deg : ℝ)
    (hres : 0 < c.res_freq) (hdrive : c.res_freq ≤ c.drive_freq)
    (hsr : c.res_freq ≤ c.sampling_rate) (htr : 0 ≤ c.trigger)
    (htt : 0 ≤ c.total_time) :
    (simulate c sol deg PyInit.none).map List.length =
      .ok (pyIntQ (c.total_time * c.sampling_rate)).toNat := by
  have hresR : (0 : ℝ) < (c.res_freq : ℝ) := by exact_mod_cast hres
  have hdriveR : ((c.res_freq : ℝ)) ≤ (c.drive_freq : ℝ) := by exact_mod_cast hdrive
  have hsrR : ((c.res_freq : ℝ)) ≤ (c.sampling_rate : ℝ) := by exact_mod_cast hsr
  have htrR : (0 : ℝ) ≤ (c.trigger : ℝ) := by exact_mod_cast htr
  have httR : (0 : ℝ) ≤ (c.total_time : ℝ) := by exact_mod_cast htt
  have hdR : (0 : ℝ) < (c.drive_freq : ℝ) := lt_of_lt_of_le hresR hdriveR
  have hsrP : (0 : ℝ) < (c.sampling_rate : ℝ) := lt_of_lt_of_le hresR hsrR
  have hπ : (0 : ℝ) < π := Real.pi_pos
  have h2π : (0 : ℝ) < 2 * π := by positivity
  have hwd : 0 < wd c := by
    rw [wd]; exact mul_pos (mul_pos two_pos hπ) hdR
  rw [simulate_none]
  simp only [Except.map]
  refine congrArg Except.ok ?_
  set pd := fmod (trigPhase deg - fmod (wd c * (c.trigger : ℝ) - delta c) (2 * π))
    (2 * π) with hpd
  have hpd0 : 0 ≤ pd := fmod_nonneg _ _ h2π
  have hpdlt : pd < 2 * π := fmod_lt _ _ h2π
  have hpdw : 0 ≤ pd / wd c := div_nonneg hpd0 hwd.le
  have ht0v : (setConditions c deg).t0 = (c.trigger : ℝ) + pd / wd c := by
    rw [setConditions_t0]
  -- the four integer indices
  have hA : pyInt ((setConditions c deg).t0 * (c.sampling_rate : ℝ)) =
      ⌊((c.trigger : ℝ) + pd / wd c) * (c.sampling_rate : ℝ)⌋ := by
    rw [ht0v]
    exact pyInt_of_nonneg _ (mul_nonneg (by linarith) hsrP.le)
  have hB : pyInt ((c.trigger : ℝ) * (c.sampling_rate : ℝ)) =
      ⌊(c.trigger : ℝ) * (c.sampling_rate : ℝ)⌋ :=
    pyInt_of_nonneg _ (mul_nonneg htrR hsrP.le)
  have hNP : (setConditions c deg).n_points =
      ⌊(c.total_time : ℝ) * (c.sampling_rate : ℝ)⌋ := by
    rw [setConditions_n_points]
    exact pyInt_of_nonneg _ (mul_nonneg httR hsrP.le)
  have hCY : pyInt (2 * (c.sampling_rate : ℝ) / (c.res_freq : ℝ)) =
      ⌊2 * (c.sampling_rate : ℝ) / (c.res_freq : ℝ)⌋ :=
    pyInt_of_nonneg _ (by positivity)
  have hNP0 : 0 ≤ ⌊(c.total_time : ℝ) * (c.sampling_rate : ℝ)⌋ :=
    Int.floor_nonneg.mpr (mul_nonneg httR hsrP.le)
  have hCY0 : 0 ≤ ⌊2 * (c.sampling_rate : ℝ) / (c.res_freq : ℝ)⌋ :=
    Int.floor_nonneg.mpr (by positivity)
  -- B ≤ A
  have hBA : ⌊(c.trigger : ℝ) * (c.sampling_rate : ℝ)⌋ ≤
      ⌊((c.trigger : ℝ) + pd / wd c) * (c.sampling_rate : ℝ)⌋ := by
    apply Int.floor_le_floor
    have : (c.trigger : ℝ) ≤ (c.trigger : ℝ) + pd / wd c := by linarith
    exact mul_le_mul_of_nonneg_right this hsrP.le
  -- A - B ≤ CY : the phase search advances the trigger index by less than
  -- one drive period, which fits inside the two-resonance-cycle pre-roll
  have hπ0 : (π : ℝ) ≠ 0 := hπ.ne'
  have hd0 : (c.drive_freq : ℝ) ≠ 0 := hdR.ne'
  have h1 : pd / wd c < (2 * π) / wd c :=
    (div_lt_div_iff_of_pos_right hwd).mpr hpdlt
  have h2 : (2 * π) / wd c = 1 / (c.drive_freq : ℝ) := by
    rw [wd]; field_simp
  have h3 : 1 / (c.drive_freq : ℝ) ≤ 1 / (c.res_freq : ℝ) :=
    one_div_le_one_div_of_le hresR hdriveR
  have h4 : pd / wd c < 1 / (c.res_freq : ℝ) := by
    rw [h2] at h1; exact lt_of_lt_of_le h1 h3
  have h5 : ((c.trigger : ℝ) + pd / wd c) * (c.sampling_rate : ℝ) <
      (c.trigger : ℝ) * (c.sampling_rate : ℝ) +
        (c.sampling_rate : ℝ) / (c.res_freq : ℝ) := by
    have hm := mul_lt_mul_of_pos_right h4 hsrP
    have he : 1 / (c.res_freq : ℝ) * (c.sampling_rate : ℝ) =
        (c.sampling_rate : ℝ) / (c.res_freq : ℝ) := by ring
    nlinarith [hm, he]
  have h6 : ⌊((c.trigger : ℝ) + pd / wd c) * (c.sampling_rate : ℝ)⌋ ≤
      ⌊(c.trigger : ℝ) * (c.sampling_rate : ℝ) +
        (c.sampling_rate : ℝ) / (c.res_freq : ℝ)⌋ :=
    Int.floor_le_floor h5.le
  have h7 := floor_add_le ((c.trigger : ℝ) * (c.sampling_rate : ℝ))
    ((c.sampling_rate : ℝ) / (c.res_freq : ℝ))
  have h8 : (1 : ℤ) ≤ ⌊(c.sampling_rate : ℝ) / (c.res_freq : ℝ)⌋ := by
    apply Int.le_floor.mpr
    push_cast
    exact (one_le_div hresR).mpr hsrR
  have h9 := two_mul_floor_le ((c.sampling_rate : ℝ) / (c.res_freq : ℝ))
  have h10 : ⌊2 * (c.sampling_rate : ℝ) / (c.res_freq : ℝ)⌋ =
      ⌊2 * ((c.sampling_rate : ℝ) / (c.res_freq : ℝ))⌋ := by
    rw [mul_div_assoc]
  -- the requested window, shifted to the resolved trigger index, fits in the
  -- extended window; Python slicing then returns exactly n_points samples
  rw [trim_length, hA, hB, hNP]
  have hlistlen :
      (((setConditions c deg).t.map
        (sol (setConditions c deg).z0 (setConditions c deg).v0)).length : ℤ) =
      ⌊2 * (c.sampling_rate : ℝ) / (c.res_freq : ℝ)⌋ +
        ⌊(c.total_time : ℝ) * (c.sampling_rate : ℝ)⌋ := by
    have hNPi : pyInt ((c.total_time : ℝ) * (c.sampling_rate : ℝ)) =
        ⌊(c.total_time : ℝ) * (c.sampling_rate : ℝ)⌋ :=
      pyInt_of_nonneg _ (mul_nonneg httR hsrP.le)
    rw [List.length_map, setConditions_t_length, setConditions_n_points_sim,
      hCY, hNPi]
    omega
  have hslice := pySlice_length
    ((setConditions c deg).t.map
      (sol (setConditions c deg).z0 (setConditions c deg).v0))
    (⌊((c.trigger : ℝ) + pd / wd c) * (c.sampling_rate : ℝ)⌋ -
      ⌊(c.trigger : ℝ) * (c.sampling_rate : ℝ)⌋)
    (⌊((c.trigger : ℝ) + pd / wd c) * (c.sampling_rate : ℝ)⌋ +
      ⌊(c.total_time : ℝ) * (c.sampling_rate : ℝ)⌋ -
      ⌊(c.trigger : ℝ) * (c.sampling_rate : ℝ)⌋)
    (by omega) (by omega) (by rw [hlistlen]; omega)
  have hq : pyIntQ (c.total_time * c.sampling_rate) =
      ⌊(c.total_time : ℝ) * (c.sampling_rate : ℝ)⌋ := by
    have hc : (((c.total_time * c.sampling_rate : ℚ)) : ℝ) =
        (c.total_time : ℝ) * (c.sampling_rate : ℝ) := by push_cast; ring
    rw [← pyInt_ratCast, hc]
    exact pyInt_of_nonneg _ (mul_nonneg httR hsrP.le)
  rw [hq]
  omega

end FFTA
namespace FFTA

open Real

theorem fmod_eq_self (x m : ℝ) (hm : 0 < m) (h0 : 0 ≤ x) (h1 : x < m) :
    fmod x m = x := by
  have hf : ⌊x / m⌋ = 0 := by
    rw [Int.floor_eq_zero_iff]
    exact ⟨div_nonneg h0 hm.le, (div_lt_one hm).mpr h1⟩
  rw [fmod, hf]
  simp

/-- Witness for claim C1 at the concrete configuration `cEx`. -/
theorem simulate_waveform_length_witness :
    0 < cEx.res_freq ∧ cEx.res_freq ≤ cEx.drive_freq ∧
    cEx.res_freq ≤ cEx.sampling_rate ∧ 0 ≤ cEx.trigger ∧ 0 ≤ cEx.total_time ∧
    (simulate cEx solZero 0 PyInit.none).map List.length =
      .ok (pyIntQ (cEx.total_time * cEx.sampling_rate)).toNat :=
  ⟨by norm_num [cEx], by norm_num [cEx], by norm_num [cEx], by norm_num [cEx],
   by norm_num [cEx],
   simulate_waveform_length cEx solZero 0 (by norm_num [cEx]) (by norm_num [cEx])
     (by norm_num [cEx]) (by norm_num [cEx]) (by norm_num [cEx])⟩

/-- Claim C1 counterexample: on `cEx` (`total_time * sampling_rate = 3.5`,
trigger phase 180°), the waveform has the truncated length 3 while the claim
predicts `round(3.5) = 4`. -/
theorem simulate_round_length_counterexample :
    (simulate cEx solZero 180 PyInit.none).map List.length = .ok 3 ∧
    (round (cEx.total_time * cEx.sampling_rate)).toNat = 4 ∧
    (simulate cEx solZero 180 PyInit.none).map List.length ≠
      .ok (round (cEx.total_time * cEx.sampling_rate)).toNat := by
  have hπ : (0 : ℝ) < π := Real.pi_pos
  have h2π : (0 : ℝ) < 2 * π := by positivity
  have hπ0 : (π : ℝ) ≠ 0 := hπ.ne'
  -- the derived constants of cEx
  have hw : w0 cEx = wd cEx := by rw [w0, wd]; norm_num [cEx]
  have hz : w0 cEx ^ 2 - wd cEx ^ 2 = 0 := by rw [hw]; ring
  have hδ : delta cEx = π / 2 := by rw [delta, if_pos hz]
  have hwdv : wd cEx = 200 * π := by
    rw [wd]; norm_num [cEx]; ring
  have htr' : ((cEx.trigger : ℚ) : ℝ) = 1 / 200 := by norm_num [cEx]
  -- the three phase quantities
  have htp : trigPhase (180 : ℝ) = π := by
    rw [trigPhase]
    have he : π * (180 : ℝ) / 180 = π := by ring
    rw [he]
    exact fmod_eq_self _ _ h2π hπ.le (by linarith)
  have hin : wd cEx * ((cEx.trigger : ℚ) : ℝ) - delta cEx = π / 2 := by
    rw [hwdv, htr', hδ]; ring
  have hcp : fmod (wd cEx * ((cEx.trigger : ℚ) : ℝ) - delta cEx) (2 * π) = π / 2 := by
    rw [hin]
    exact fmod_eq_self _ _ h2π (by positivity) (by linarith)
  have hhalf : π - π / 2 = π / 2 := by ring
  have hpdv : fmod (trigPhase (180 : ℝ) -
      fmod (wd cEx * ((cEx.trigger : ℚ) : ℝ) - delta cEx) (2 * π)) (2 * π) = π / 2 := by
    rw [htp, hcp, hhalf]
    exact fmod_eq_self _ _ h2π (by positivity) (by linarith)
  -- the resolved trigger time and the integer indices
  have ht0 : (setConditions cEx 180).t0 = 3 / 400 := by
    rw [setConditions_t0, hpdv, hwdv]
    have hq : (π / 2) / (200 * π) = 1 / 400 := by
      field_simp
      ring
    rw [htr', hq]
    norm_num
  have hA : pyInt ((setConditions cEx 180).t0 * ((cEx.sampling_rate : ℚ) : ℝ)) = 75 := by
    have hv : (setConditions cEx 180).t0 * ((cEx.sampling_rate : ℚ) : ℝ) = 75 := by
      rw [ht0]; norm_num [cEx]
    rw [hv, pyInt_of_nonneg _ (by norm_num)]
    norm_num
  have hB : pyInt (((cEx.trigger : ℚ) : ℝ) * ((cEx.sampling_rate : ℚ) : ℝ)) = 50 := by
    have hv : ((cEx.trigger : ℚ) : ℝ) * ((cEx.sampling_rate : ℚ) : ℝ) = 50 := by
      norm_num [cEx]
    rw [hv, pyInt_of_nonneg _ (by norm_num)]
    norm_num
  have hNPi : pyInt (((cEx.total_time : ℚ) : ℝ) * ((cEx.sampling_rate : ℚ) : ℝ)) = 3 := by
    have hv : ((cEx.total_time : ℚ) : ℝ) * ((cEx.sampling_rate : ℚ) : ℝ) = 7 / 2 := by
      norm_num [cEx]
    rw [hv, pyInt_of_nonneg _ (by norm_num)]
    norm_num
  have hCYi : pyInt (2 * ((cEx.sampling_rate : ℚ) : ℝ) / ((cEx.res_freq : ℚ) : ℝ)) = 200 := by
    have hv : 2 * ((cEx.sampling_rate : ℚ) : ℝ) / ((cEx.res_freq : ℚ) : ℝ) = 200 := by
      norm_num [cEx]
    rw [hv, pyInt_of_nonneg _ (by norm_num)]
    norm_num
  have hlen : (((setConditions cEx 180).t.map
      (solZero (setConditions cEx 180).z0 (setConditions cEx 180).v0)).length : ℤ) = 203 := by
    rw [List.length_map, setConditions_t_length, setConditions_n_points_sim,
      hCYi, hNPi]
    norm_num
  have hp1 : (simulate cEx solZero 180 PyInit.none).map List.length = .ok 3 := by
    rw [simulate_none]
    simp only [Except.map]
    refine congrArg Except.ok ?_
    rw [trim_length, setConditions_n_points, hA, hB, hNPi]
    have hslice := pySlice_length
      ((setConditions cEx 180).t.map
        (solZero (setConditions cEx 180).z0 (setConditions cEx 180).v0))
      (75 - 50) (75 + 3 - 50) (by norm_num) (by norm_num)
      (by rw [hlen]; norm_num)
    omega
  have hp2 : (round (cEx.total_time * cEx.sampling_rate)).toNat = 4 := by
    have hq : cEx.total_time * cEx.sampling_rate = 7 / 2 := by norm_num [cEx]
    rw [hq, round_eq]
    norm_num
    rfl
  refine ⟨hp1, hp2, ?_⟩
  intro h
  rw [hp1, hp2] at h
  simp only [Except.ok.injEq] at h
  norm_num at h

end FFTA
